import Mathlib

/-!
Verification of the core logic of the Florida-Coastal-LiDAR single-page
application (src/unnamed/part_000): search-result ranking
(`getQualityScore`, `handleSearchComplete`), layer styling
(`applyColorScheme`, `applySeaLevelFilter`), and the Florida GeoJSON
feature filter.  JavaScript strings, numbers and map state are shallowly
embedded: strings as `String`, JS numbers as `Rat` (the numerals in the
source are exact), timestamps as `Int` milliseconds with `none` standing
for `NaN` (an invalid `Date`), and the MapLibre map as an association
list from layer ids to layer state.  `Array.prototype.sort` (stable since
ES2019) is modelled by a stable insertion sort; the ES `SortCompare`
coercion of a `NaN` comparator result to `+0` is modelled explicitly.
-/

namespace FloridaLidar

/-! ### JS string helpers: `String.prototype.includes` on uppercased text -/

/-- `hasPrefixL p s` : the char list `p` is a prefix of `s`
(the prefix step of JS `String.prototype.includes`). -/
def hasPrefixL : List Char → List Char → Bool
  | [], _ => true
  | _ :: _, [] => false
  | p :: ps, c :: cs => p == c && hasPrefixL ps cs

/-- `hasSubstrL p s` : `p` occurs as a contiguous substring of `s`. -/
def hasSubstrL (p : List Char) : List Char → Bool
  | [] => hasPrefixL p []
  | s@(_ :: cs) => hasPrefixL p s || hasSubstrL p cs

/-- JS `s.includes(pat)` on our string model. -/
def includes (s pat : String) : Bool := hasSubstrL pat.data s.data

/-- JS `s.toString().toUpperCase()`, character by character (the labels
involved are ASCII, where the JS and per-character mappings agree). -/
def upperJS (s : String) : String := ⟨s.data.map Char.toUpper⟩

/-! ### getQualityScore (source lines 65-80) -/

/-- Embeds `getQualityScore` from the source: normalise the (possibly
absent) quality label with `(qualityLevel || "").toString().toUpperCase()`
and test for the substrings `QL0`, `QL1`, `QL2`, `QL3` in that order,
returning 0/1/2/3, else 9.  An absent (`undefined`) label is `none`. -/
def getQualityScore (qualityLevel : Option String) : Nat :=
  let normalized := upperJS (qualityLevel.getD "")
  if includes normalized "QL0" then 0
  else if includes normalized "QL1" then 1
  else if includes normalized "QL2" then 2
  else if includes normalized "QL3" then 3
  else 9

/-! ### Dataset descriptors and the ranking comparator (lines 281-304) -/

/-- The parse outcome of a truthy date-like field: `parsed t` when
`new Date(v).getTime()` yields the millisecond timestamp `t`,
`unparseable` when it yields `NaN` (invalid date). -/
inductive DateVal where
  | parsed (t : Int) : DateVal
  | unparseable : DateVal
deriving DecidableEq, Repr

/-- One LiDAR dataset search result.  `none` in a date field models an
absent (or falsy, hence skipped by the JS `||` chain) property. -/
structure DatasetDescriptor where
  qualityLevel : Option String
  publicationDate : Option DateVal
  date : Option DateVal
deriving DecidableEq, Repr

/-- `new Date(a.publicationDate || a.date || 0).getTime()`:
first truthy date field, falling back to epoch `0`; `none` is `NaN`. -/
def getTimeMs (d : DatasetDescriptor) : Option Int :=
  match d.publicationDate with
  | some (.parsed t) => some t
  | some .unparseable => none
  | none =>
    match d.date with
    | some (.parsed t) => some t
    | some .unparseable => none
    | none => some 0

/-- The sort comparator in `handleSearchComplete`, after the ES
`SortCompare` step that coerces a `NaN` result to `+0`: quality
difference if nonzero, else `dateB - dateA` (0 when either is `NaN`). -/
def compareDesc (a b : DatasetDescriptor) : Int :=
  let qualityDiff : Int :=
    (getQualityScore a.qualityLevel : Int) - (getQualityScore b.qualityLevel : Int)
  if qualityDiff ≠ 0 then qualityDiff
  else
    match getTimeMs b, getTimeMs a with
    | some dateB, some dateA => dateB - dateA
    | _, _ => 0

/-- Stable insertion of `x` into `l`: `x` is placed before the first
element it does not strictly follow (`cmp x y ≤ 0`). -/
def insertBy (cmp : α → α → Int) (x : α) : List α → List α
  | [] => [x]
  | y :: ys => if cmp x y ≤ 0 then x :: y :: ys else y :: insertBy cmp x ys

/-- Stable sort modelling ES2019+ `Array.prototype.sort`: elements are
inserted left-to-right, so ties keep their original relative order. -/
def sortBy (cmp : α → α → Int) : List α → List α
  | [] => []
  | x :: xs => insertBy cmp x (sortBy cmp xs)

/-- Embeds `handleSearchComplete` (lines 281-304): on an empty result
list do nothing (`none` = no `loadDataset` call); otherwise sort by the
comparator and hand the first element to the loader. -/
def handleSearchComplete (results : List DatasetDescriptor) : Option DatasetDescriptor :=
  if results.isEmpty then none
  else (sortBy compareDesc results).head?

/-- Quality score of a descriptor's label, as used by the comparator. -/
def qscore (d : DatasetDescriptor) : Nat := getQualityScore d.qualityLevel

/-- The normalised label `(qualityLevel || "").toString().toUpperCase()`
that `getQualityScore` tests its substrings against. -/
abbrev qlabel (q : Option String) : String := upperJS (q.getD "")

/-! ### MapLibre expressions and map state (StyleComposer side) -/

/-- JSON-style MapLibre expressions, as passed to `setPaintProperty` and
`setFilter`: strings, numbers (`Rat`; every numeral in the source is
exactly representable) and arrays. -/
inductive Expr where
  | str : String → Expr
  | num : Rat → Expr
  | list : List Expr → Expr

/-- The per-layer state this app touches: the `point-color` paint
property and the layer filter (either may be unset). -/
structure LayerState where
  pointColor : Option Expr
  filter : Option Expr

/-- The rendered map, as an association list from layer id to state. -/
abbrev MapState := List (String × LayerState)

/-- `map.getLayer(id)`-style lookup of a layer's state. -/
def lookupLayer : MapState → String → Option LayerState
  | [], _ => none
  | (k, st) :: rest, lid => if k = lid then some st else lookupLayer rest lid

/-- JS truthiness of `mapInstance.getLayer(layerId)`. -/
def getLayer (m : MapState) (lid : String) : Bool := (lookupLayer m lid).isSome

/-- Update the state of the layer named `lid`, leaving others alone. -/
def updateLayer (f : LayerState → LayerState) (m : MapState) (lid : String) : MapState :=
  m.map fun kv => if kv.1 = lid then (kv.1, f kv.2) else kv

/-- `mapInstance.setPaintProperty(layerId, "point-color", e)`:
replaces the paint expression of that layer. -/
def setPaintPointColor (m : MapState) (lid : String) (e : Expr) : MapState :=
  updateLayer (fun st => { st with pointColor := some e }) m lid

/-- `mapInstance.setFilter(layerId, e)`: replaces (never merges) the
filter of that layer, per the MapLibre API. -/
def setFilter (m : MapState) (lid : String) (e : Expr) : MapState :=
  updateLayer (fun st => { st with filter := some e }) m lid

/-- `COLOR_RAMPS.elevation.ramp` from the source (lines 47-61). -/
def COLOR_RAMPS_elevation_ramp : List (Rat × String) :=
  [(0, "#0d47a1"), (1, "#1976d2"), (2.5, "#26c6da"), (3.5, "#fdd835"), (5, "#ef5350")]

/-- `COLOR_RAMPS.elevation.ramp.flat()` spread into expression items. -/
def rampFlat : List Expr :=
  COLOR_RAMPS_elevation_ramp.foldr (fun p acc => Expr.num p.1 :: Expr.str p.2 :: acc) []

/-- The `point-color` expression for the `elevation` scheme. -/
def elevationExpr : Expr :=
  .list ([.str "interpolate", .list [.str "linear"], .list [.str "get", .str "Z"]] ++ rampFlat)

/-- The `point-color` expression for the `intensity` scheme. -/
def intensityExpr : Expr :=
  .list [.str "interpolate", .list [.str "linear"], .list [.str "get", .str "Intensity"],
    .num 0, .str "#212121", .num 255, .str "#f5f5f5"]

/-- The `point-color` expression for the `classification` scheme. -/
def classificationExpr : Expr :=
  .list [.str "match", .list [.str "get", .str "Classification"],
    .num 2, .str "#4caf50", .num 7, .str "#1976d2", .num 9, .str "#ffb300",
    .num 10, .str "#ef5350", .str "#9e9e9e"]

/-- The `point-color` expression for the `rgb` scheme. -/
def rgbExpr : Expr :=
  .list [.str "rgb", .list [.str "get", .str "Red"], .list [.str "get", .str "Green"],
    .list [.str "get", .str "Blue"]]

/-- The paint expression a recognised scheme name selects, `none` for an
unrecognised scheme (no branch of the `if`/`else` chain fires). -/
def schemeExpr (scheme : String) : Option Expr :=
  if scheme = "elevation" then some elevationExpr
  else if scheme = "intensity" then some intensityExpr
  else if scheme = "classification" then some classificationExpr
  else if scheme = "rgb" then some rgbExpr
  else none

/-- The body of the `forEach` in `applyColorScheme` (lines 206-253):
skip layers absent from the map, then dispatch on the scheme string. -/
def applyColorSchemeStep (scheme : String) (acc : MapState) (layerId : String) : MapState :=
  if !(getLayer acc layerId) then acc
  else if scheme = "elevation" then setPaintPointColor acc layerId elevationExpr
  else if scheme = "intensity" then setPaintPointColor acc layerId intensityExpr
  else if scheme = "classification" then setPaintPointColor acc layerId classificationExpr
  else if scheme = "rgb" then setPaintPointColor acc layerId rgbExpr
  else acc

/-- Embeds `applyColorScheme`: fold the per-layer step over the current
lidar layer ids. -/
def applyColorScheme (layerIds : List String) (m : MapState) (scheme : String) : MapState :=
  layerIds.foldl (applyColorSchemeStep scheme) m

/-- The filter expression `[">=", ["get", "Z"], threshold]`. -/
def seaLevelFilterExpr (threshold : Rat) : Expr :=
  .list [.str ">=", .list [.str "get", .str "Z"], .num threshold]

/-- Embeds `applySeaLevelFilter` (lines 255-261): for each current layer
id present in the map, replace its filter with the threshold predicate. -/
def applySeaLevelFilter (layerIds : List String) (m : MapState) (threshold : Rat) : MapState :=
  layerIds.foldl
    (fun acc layerId =>
      if getLayer acc layerId then setFilter acc layerId (seaLevelFilterExpr threshold)
      else acc) m

/-- Common shape of both style folds: apply `f` to every layer of `ids`
present in the map, silently skipping absent ones. -/
def applyToLayers (f : LayerState → LayerState) (ids : List String) (m : MapState) :
    MapState :=
  ids.foldl (fun acc lid => if getLayer acc lid then updateLayer f acc lid else acc) m

/-! ### MapLibre filter-expression semantics (for the C5 accept/reject
facts).  Modelled from the MapLibre style-spec semantics of the only
forms the app emits: numeric literals, `["get", attr]`, and
`[">=", e1, e2]`. -/

/-- A rendered point, as its attribute map. -/
abbrev Point := List (String × Rat)

/-- Attribute lookup on a point. -/
def lookupAttr : Point → String → Option Rat
  | [], _ => none
  | (k, v) :: rest, a => if k = a then some v else lookupAttr rest a

/-- Numeric evaluation of the expression forms the app emits. -/
def evalNum : Expr → Point → Option Rat
  | .num n, _ => some n
  | .list [.str "get", .str a], p => lookupAttr p a
  | _, _ => none

/-- Truth of a `[">=", e1, e2]` filter at a point: keep the point iff
the first operand evaluates to at least the second. -/
def evalFilterExpr : Expr → Point → Bool
  | .list [.str ">=", e1, e2], p =>
    match evalNum e1 p, evalNum e2 p with
    | some x, some y => decide (y ≤ x)
    | _, _ => false
  | _, _ => false

/-! ### NOAA GeoJSON Florida feature filter (lines 126-129) -/

/-- A GeoJSON feature, reduced to the two properties the filter reads.
`none` models an absent property. -/
structure Feature where
  state : Option String
  STATE : Option String
deriving DecidableEq, Repr

/-- JS truthiness of an optional string: the empty string is falsy. -/
def truthyStr : Option String → Option String
  | some s => if s = "" then none else some s
  | none => none

/-- `feature.properties?.state || feature.properties?.STATE`:
the first truthy of the two values. -/
def jsOrStr (a b : Option String) : Option String :=
  match truthyStr a with
  | some s => some s
  | none => truthyStr b

/-- The filter predicate of the map-load handler:
`state && state.toString().toUpperCase().includes("FL")`. -/
def floridaKeep (f : Feature) : Bool :=
  match jsOrStr f.state f.STATE with
  | some s => includes (upperJS s) "FL"
  | none => false

/-- `data.features.filter(...)` restricted to Florida features. -/
def floridaFilter (fs : List Feature) : List Feature := fs.filter floridaKeep

/-! ### Concrete instances used by the claims' examples -/

/-- `{QL2, 2020-01-01}`: `Date.parse("2020-01-01")` in milliseconds. -/
def exQL2_2020 : DatasetDescriptor := ⟨some "QL2", some (.parsed 1577836800000), none⟩

/-- `{QL0, 2019-01-01}`. -/
def exQL0_2019 : DatasetDescriptor := ⟨some "QL0", some (.parsed 1546300800000), none⟩

/-- `{QL0, 2021-01-01}`. -/
def exQL0_2021 : DatasetDescriptor := ⟨some "QL0", some (.parsed 1609459200000), none⟩

/-- A QL1 descriptor whose `publicationDate` does not parse
(`new Date(...)` is an Invalid Date, `.getTime()` is `NaN`). -/
def dUnparseable : DatasetDescriptor := ⟨some "QL1", some .unparseable, none⟩

/-- A QL1 peer with a later (positive-timestamp) parseable date. -/
def dParsed : DatasetDescriptor := ⟨some "QL1", some (.parsed 1000), none⟩

/-- A QL1 descriptor with both date fields absent. -/
def dAbsent : DatasetDescriptor := ⟨some "QL1", none, none⟩

def featFL : Feature := ⟨some "FL", none⟩

def featLowercaseFl : Feature := ⟨some "fl", none⟩

def featGA : Feature := ⟨some "GA", none⟩

def featMissing : Feature := ⟨none, none⟩

/-- A layer with no paint or filter set. -/
def exLayer : LayerState := ⟨none, none⟩

/-- A layer with a pre-existing paint and filter, to exercise
replacement. -/
def exLayerPrior : LayerState := ⟨some (.str "#ffffff"), some (.list [.str "has", .str "Z"])⟩

/-- A two-layer map. -/
def exMap : MapState := [("lidar-1", exLayer), ("lidar-2", exLayerPrior)]

/-! ### Generic facts about the stable insertion sort -/

theorem insertBy_perm (cmp : α → α → Int) (x : α) :
    ∀ l : List α, (insertBy cmp x l).Perm (x :: l)
  | [] => List.Perm.refl _
  | y :: ys => by
    unfold insertBy
    by_cases h : cmp x y ≤ 0
    · rw [if_pos h]
    · rw [if_neg h]
      exact ((insertBy_perm cmp x ys).cons y).trans (List.Perm.swap x y ys)

theorem sortBy_perm (cmp : α → α → Int) :
    ∀ l : List α, (sortBy cmp l).Perm l
  | [] => List.Perm.refl _
  | x :: xs =>
    (insertBy_perm cmp x (sortBy cmp xs)).trans ((sortBy_perm cmp xs).cons x)

theorem mem_insertBy (cmp : α → α → Int) (x : α) (l : List α) (a : α) :
    a ∈ insertBy cmp x l ↔ a = x ∨ a ∈ l := by
  rw [(insertBy_perm cmp x l).mem_iff, List.mem_cons]

theorem pairwise_insertBy {cmp : α → α → Int} {P : α → Prop}
    (htot : ∀ a b, cmp a b ≤ 0 ∨ cmp b a ≤ 0)
    (htrans : ∀ a b c, P a → P b → P c → cmp a b ≤ 0 → cmp b c ≤ 0 → cmp a c ≤ 0)
    {x : α} (hx : P x) :
    ∀ {l : List α}, (∀ y ∈ l, P y) →
      l.Pairwise (fun a b => cmp a b ≤ 0) →
      (insertBy cmp x l).Pairwise (fun a b => cmp a b ≤ 0)
  | [], _, _ => by simp [insertBy]
  | y :: ys, hl, hp => by
    unfold insertBy
    rcases List.pairwise_cons.mp hp with ⟨hy, hys⟩
    by_cases h : cmp x y ≤ 0
    · rw [if_pos h]
      refine List.pairwise_cons.mpr ⟨?_, hp⟩
      intro z hz
      rcases List.mem_cons.mp hz with rfl | hz'
      · exact h
      · exact htrans x y z hx (hl y (List.mem_cons_self y ys))
          (hl z (List.mem_cons_of_mem y hz')) h (hy z hz')
    · rw [if_neg h]
      have hyx : cmp y x ≤ 0 := (htot x y).resolve_left h
      refine List.pairwise_cons.mpr ⟨?_, ?_⟩
      · intro z hz
        rcases (mem_insertBy cmp x ys z).mp hz with rfl | hz'
        · exact hyx
        · exact hy z hz'
      · exact pairwise_insertBy htot htrans hx
          (fun z hz => hl z (List.mem_cons_of_mem y hz)) hys

theorem pairwise_sortBy {cmp : α → α → Int} {P : α → Prop}
    (htot : ∀ a b, cmp a b ≤ 0 ∨ cmp b a ≤ 0)
    (htrans : ∀ a b c, P a → P b → P c → cmp a b ≤ 0 → cmp b c ≤ 0 → cmp a c ≤ 0) :
    ∀ {l : List α}, (∀ y ∈ l, P y) →
      (sortBy cmp l).Pairwise (fun a b => cmp a b ≤ 0)
  | [], _ => List.Pairwise.nil
  | x :: xs, hl => by
    have hxs : ∀ y ∈ xs, P y := fun y hy => hl y (List.mem_cons_of_mem x hy)
    refine pairwise_insertBy htot htrans (hl x (List.mem_cons_self x xs)) ?_
      (pairwise_sortBy htot htrans hxs)
    intro y hy
    exact hxs y ((sortBy_perm cmp xs).mem_iff.mp hy)

/-- The existing list is a sublist of the result of inserting into it. -/
theorem sublist_insertBy (cmp : α → α → Int) (x : α) :
    ∀ l : List α, l.Sublist (insertBy cmp x l)
  | [] => List.nil_sublist _
  | y :: ys => by
    unfold insertBy
    by_cases h : cmp x y ≤ 0
    · rw [if_pos h]; exact List.sublist_cons_self x (y :: ys)
    · rw [if_neg h]; exact (sublist_insertBy cmp x ys).cons₂ y

theorem insertBy_sublist_of {cmp : α → α → Int} {x : α} :
    ∀ {c m : List α}, (∀ y ∈ c, cmp x y ≤ 0) → c.Sublist m →
      (x :: c).Sublist (insertBy cmp x m)
  | c, [], _, hs => by
    rw [List.sublist_nil.mp hs]
    exact List.Sublist.refl [x]
  | c, y :: m', hxc, hs => by
    unfold insertBy
    by_cases h : cmp x y ≤ 0
    · rw [if_pos h]
      exact hs.cons₂ x
    · rw [if_neg h]
      cases hs with
      | cons _ hs' => exact (insertBy_sublist_of hxc hs').cons y
      | cons₂ _ hs' =>
        exact absurd (hxc y (List.mem_cons_self y _)) h

/-- Stability of the insertion sort: a sublist that is already sorted by
the comparator stays a sublist of the sorted output, so tied elements
keep their original relative order. -/
theorem sortBy_stable {cmp : α → α → Int} :
    ∀ {c l : List α}, c.Pairwise (fun a b => cmp a b ≤ 0) → c.Sublist l →
      c.Sublist (sortBy cmp l)
  | c, [], _, hs => by rw [List.sublist_nil.mp hs]; exact List.Sublist.refl _
  | c, x :: xs, hc, hs => by
    show c.Sublist (insertBy cmp x (sortBy cmp xs))
    cases hs with
    | cons _ hs' =>
      exact (sortBy_stable hc hs').trans (sublist_insertBy cmp x _)
    | cons₂ _ hs' =>
      rcases List.pairwise_cons.mp hc with ⟨hxc, hc'⟩
      exact insertBy_sublist_of hxc (sortBy_stable hc' hs')

/-! ### Facts about the ranking comparator -/

theorem compareDesc_def (a b : DatasetDescriptor) :
    compareDesc a b =
      if ((qscore a : Int) - (qscore b : Int)) ≠ 0 then (qscore a : Int) - (qscore b : Int)
      else
        match getTimeMs b, getTimeMs a with
        | some dateB, some dateA => dateB - dateA
        | _, _ => 0 := rfl

theorem compareDesc_antisymm (a b : DatasetDescriptor) :
    compareDesc a b = - compareDesc b a := by
  rcases h1 : getTimeMs a with _ | ta <;> rcases h2 : getTimeMs b with _ | tb <;>
    simp only [compareDesc_def, h1, h2] <;> split <;> split <;> omega

theorem compareDesc_total (a b : DatasetDescriptor) :
    compareDesc a b ≤ 0 ∨ compareDesc b a ≤ 0 := by
  have h := compareDesc_antisymm a b
  omega

theorem compareDesc_eq_zero {a b : DatasetDescriptor}
    (hq : qscore a = qscore b) (ht : getTimeMs a = getTimeMs b) :
    compareDesc a b = 0 := by
  rcases h1 : getTimeMs b with _ | tb <;>
    simp only [compareDesc_def, hq, ht, h1, sub_self, ne_eq, not_true_eq_false,
      if_false]

theorem compareDesc_le_iff {a b : DatasetDescriptor} {ta tb : Int}
    (ha : getTimeMs a = some ta) (hb : getTimeMs b = some tb) :
    compareDesc a b ≤ 0 ↔
      (qscore a < qscore b ∨ (qscore a = qscore b ∧ tb ≤ ta)) := by
  simp only [compareDesc_def, ha, hb]
  split <;> omega

theorem compareDesc_trans {a b c : DatasetDescriptor}
    (ha : (getTimeMs a).isSome) (hb : (getTimeMs b).isSome) (hc : (getTimeMs c).isSome)
    (h1 : compareDesc a b ≤ 0) (h2 : compareDesc b c ≤ 0) : compareDesc a c ≤ 0 := by
  rcases Option.isSome_iff_exists.mp ha with ⟨ta, ha'⟩
  rcases Option.isSome_iff_exists.mp hb with ⟨tb, hb'⟩
  rcases Option.isSome_iff_exists.mp hc with ⟨tc, hc'⟩
  rw [compareDesc_le_iff ha' hb'] at h1
  rw [compareDesc_le_iff hb' hc'] at h2
  rw [compareDesc_le_iff ha' hc']
  omega

/-! ### The claims -/

/-- C1.  For every sequence of descriptors whose resolved timestamps are
defined (parseable or absent-hence-epoch dates): the empty sequence
selects nothing (no `loadDataset` call), and a non-empty sequence
selects an element of the input that is highest-ranked — its quality
score is strictly lower than that of any other element, or equal with a
timestamp at least as late.  Moreover, for the spec's concrete input
`[{QL2, 2020-01-01}, {QL0, 2019-01-01}, {QL0, 2021-01-01}]` the selected
best is `{QL0, 2021-01-01}`. -/
theorem handleSearchComplete_selects_best (l : List DatasetDescriptor)
    (hp : ∀ d ∈ l, (getTimeMs d).isSome) :
    (l = [] → handleSearchComplete l = none) ∧
    (l ≠ [] → ∃ b, handleSearchComplete l = some b ∧ b ∈ l ∧
      ∀ x ∈ l, qscore b < qscore x ∨
        (qscore b = qscore x ∧ (getTimeMs x).getD 0 ≤ (getTimeMs b).getD 0)) ∧
    handleSearchComplete [exQL2_2020, exQL0_2019, exQL0_2021] = some exQL0_2021 := by
  refine ⟨?_, ?_, by decide⟩
  · rintro rfl; rfl
  · intro hne
    have hperm := sortBy_perm compareDesc l
    have hsorted := pairwise_sortBy (P := fun d => (getTimeMs d).isSome)
      compareDesc_total (fun a b c pa pb pc => compareDesc_trans pa pb pc) hp
    rcases hsl : sortBy compareDesc l with _ | ⟨b, rest⟩
    · rw [hsl] at hperm
      exact absurd hperm.symm.eq_nil hne
    · refine ⟨b, ?_, ?_, ?_⟩
      · unfold handleSearchComplete
        rw [if_neg (by simpa [List.isEmpty_iff] using hne), hsl]
        rfl
      · have hb : b ∈ sortBy compareDesc l := by
          rw [hsl]; exact List.mem_cons_self b rest
        exact hperm.mem_iff.mp hb
      · intro x hx
        have hb : b ∈ l := by
          refine hperm.mem_iff.mp ?_
          rw [hsl]; exact List.mem_cons_self b rest
        have hxs : x ∈ sortBy compareDesc l := hperm.mem_iff.mpr hx
        rw [hsl] at hxs
        rcases List.mem_cons.mp hxs with rfl | hx'
        · exact Or.inr ⟨rfl, le_refl _⟩
        · have hle : compareDesc b x ≤ 0 := by
            rw [hsl] at hsorted
            exact (List.pairwise_cons.mp hsorted).1 x hx'
          rcases Option.isSome_iff_exists.mp (hp b hb) with ⟨tb, htb⟩
          rcases Option.isSome_iff_exists.mp (hp x hx) with ⟨tx, htx⟩
          rw [compareDesc_le_iff htb htx] at hle
          rcases hle with h | ⟨h1, h2⟩
          · exact Or.inl h
          · refine Or.inr ⟨h1, ?_⟩
            rw [htb, htx]
            simpa using h2

/-- Instantiates C1's theorem on the spec's concrete three-descriptor
example, discharging its hypotheses. -/
theorem handleSearchComplete_selects_best_witness :
    ∃ b, handleSearchComplete [exQL2_2020, exQL0_2019, exQL0_2021] = some b ∧
      b ∈ [exQL2_2020, exQL0_2019, exQL0_2021] ∧
      ∀ x ∈ [exQL2_2020, exQL0_2019, exQL0_2021], qscore b < qscore x ∨
        (qscore b = qscore x ∧ (getTimeMs x).getD 0 ≤ (getTimeMs b).getD 0) :=
  (handleSearchComplete_selects_best [exQL2_2020, exQL0_2019, exQL0_2021]
    (by decide)).2.1 (by decide)

/-- C4.  The ranking sort is stable: two descriptors tied on both keys
(equal quality score, equal resolved timestamp) that occur in order in
the input still occur in that order in the sorted output. -/
theorem ranking_sort_stable (l : List DatasetDescriptor) (a b : DatasetDescriptor)
    (hq : qscore a = qscore b) (ht : getTimeMs a = getTimeMs b)
    (hs : [a, b].Sublist l) :
    [a, b].Sublist (sortBy compareDesc l) := by
  refine sortBy_stable ?_ hs
  refine List.pairwise_cons.mpr ⟨?_, List.pairwise_singleton _ _⟩
  intro z hz
  rcases List.mem_singleton.mp hz with rfl
  exact le_of_eq (compareDesc_eq_zero hq ht)

/-- Instantiates C4's theorem on a list with an exact duplicate pair,
discharging its hypotheses. -/
theorem ranking_sort_stable_witness :
    [exQL0_2019, exQL0_2019].Sublist
      (sortBy compareDesc [exQL0_2019, exQL2_2020, exQL0_2019]) :=
  ranking_sort_stable [exQL0_2019, exQL2_2020, exQL0_2019] exQL0_2019 exQL0_2019
    rfl rfl (by decide)

/-- C3 counterexample.  `dUnparseable` and `dParsed` have equal quality
scores; `dParsed` has a later parseable date (timestamp 1000 > 0, the
epoch the claim says an unparseable date degrades to), yet the sort
leaves `dUnparseable` ranked first and selects it — because
`new Date(...).getTime()` is `NaN` there and the ES `SortCompare` step
turns the comparator's `NaN` into `+0`, a tie, not "oldest". -/
theorem unparseable_date_is_tie_not_epoch :
    qscore dUnparseable = qscore dParsed ∧
    getTimeMs dUnparseable = none ∧
    getTimeMs dParsed = some 1000 ∧
    sortBy compareDesc [dUnparseable, dParsed] = [dUnparseable, dParsed] ∧
    handleSearchComplete [dUnparseable, dParsed] = some dUnparseable ∧
    dUnparseable ≠ dParsed := by decide

/-- C3 amended.  A descriptor with both date fields absent resolves to
epoch zero and is ranked after any equal-quality peer with a
positive-timestamp parseable date; a descriptor whose present date is
unparseable resolves to `NaN`, which the comparator turns into a tie
(0 in both directions) against any equal-quality peer, so it keeps its
original position instead of sinking to oldest; and the sort always
succeeds, returning a permutation of its input. -/
theorem date_fallback_amended :
    (∀ d : DatasetDescriptor, d.publicationDate = none → d.date = none →
      getTimeMs d = some 0) ∧
    (∀ a b : DatasetDescriptor, getTimeMs a = none → qscore a = qscore b →
      compareDesc a b = 0 ∧ compareDesc b a = 0) ∧
    (∀ a b : DatasetDescriptor, ∀ tb : Int, getTimeMs a = some 0 →
      getTimeMs b = some tb → 0 < tb → qscore a = qscore b →
      compareDesc b a < 0) ∧
    (∀ l : List DatasetDescriptor, (sortBy compareDesc l).Perm l) := by
  refine ⟨?_, ?_, ?_, sortBy_perm compareDesc⟩
  · intro d h1 h2
    simp [getTimeMs, h1, h2]
  · intro a b ha hq
    constructor <;>
      rcases hb : getTimeMs b with _ | tb <;>
      rw [compareDesc_def, if_neg (by simp [hq]), ha, hb]
  · intro a b tb h0 htb hpos hq
    rw [compareDesc_def, if_neg (by simp [hq]), h0, htb]
    show (0 : Int) - tb < 0
    omega

/-- Instantiates C3's amended theorem at concrete descriptors,
discharging its hypotheses. -/
theorem date_fallback_amended_witness :
    getTimeMs dAbsent = some 0 ∧
    (compareDesc dUnparseable dParsed = 0 ∧ compareDesc dParsed dUnparseable = 0) ∧
    compareDesc dParsed dAbsent < 0 ∧
    (sortBy compareDesc [dParsed, dAbsent]).Perm [dParsed, dAbsent] :=
  ⟨date_fallback_amended.1 dAbsent rfl rfl,
   date_fallback_amended.2.1 dUnparseable dParsed rfl rfl,
   date_fallback_amended.2.2.1 dAbsent dParsed 1000 rfl rfl (by decide) rfl,
   date_fallback_amended.2.2.2 [dParsed, dAbsent]⟩

/-! ### Facts about getQualityScore -/

theorem getQualityScore_def (q : Option String) :
    getQualityScore q =
      if includes (qlabel q) "QL0" then 0
      else if includes (qlabel q) "QL1" then 1
      else if includes (qlabel q) "QL2" then 2
      else if includes (qlabel q) "QL3" then 3
      else 9 := rfl

theorem hasPrefixL_append {p q : List Char} :
    ∀ {s : List Char}, hasPrefixL (p ++ q) s = true → hasPrefixL p s = true := by
  induction p with
  | nil => intro s _; rfl
  | cons c cs ih =>
    intro s h
    cases s with
    | nil => exact absurd h (by simp [hasPrefixL])
    | cons d ds =>
      simp only [List.cons_append, hasPrefixL, Bool.and_eq_true] at h ⊢
      exact ⟨h.1, ih h.2⟩

theorem hasSubstrL_append {p q : List Char} :
    ∀ {s : List Char}, hasSubstrL (p ++ q) s = true → hasSubstrL p s = true := by
  intro s
  induction s with
  | nil => exact fun h => hasPrefixL_append h
  | cons c cs ih =>
    intro h
    simp only [hasSubstrL, Bool.or_eq_true] at h ⊢
    rcases h with h | h
    · exact Or.inl (hasPrefixL_append h)
    · exact Or.inr (ih h)

/-- A string containing `QL10` contains `QL1` (the latter is a prefix of
the former). -/
theorem includes_QL1_of_QL10 (t : String) (h : includes t "QL10" = true) :
    includes t "QL1" = true := by
  have h' : hasSubstrL ("QL1".data ++ ['0']) t.data = true := h
  exact hasSubstrL_append h'

/-- C2.  Whenever the (possibly absent) quality label contains exactly
one of the substrings `QL0`..`QL3` — containment read case-insensitively
via the uppercased label `qlabel q`, any surrounding text allowed — the
score is 0/1/2/3 respectively; when it contains none of them (including
the empty and the absent label) the score is 9. -/
theorem getQualityScore_exactly_one (q : Option String) :
    (includes (qlabel q) "QL0" = true → includes (qlabel q) "QL1" = false →
      includes (qlabel q) "QL2" = false → includes (qlabel q) "QL3" = false →
      getQualityScore q = 0) ∧
    (includes (qlabel q) "QL0" = false → includes (qlabel q) "QL1" = true →
      includes (qlabel q) "QL2" = false → includes (qlabel q) "QL3" = false →
      getQualityScore q = 1) ∧
    (includes (qlabel q) "QL0" = false → includes (qlabel q) "QL1" = false →
      includes (qlabel q) "QL2" = true → includes (qlabel q) "QL3" = false →
      getQualityScore q = 2) ∧
    (includes (qlabel q) "QL0" = false → includes (qlabel q) "QL1" = false →
      includes (qlabel q) "QL2" = false → includes (qlabel q) "QL3" = true →
      getQualityScore q = 3) ∧
    (includes (qlabel q) "QL0" = false → includes (qlabel q) "QL1" = false →
      includes (qlabel q) "QL2" = false → includes (qlabel q) "QL3" = false →
      getQualityScore q = 9) ∧
    getQualityScore none = 9 := by
  refine ⟨?_, ?_, ?_, ?_, ?_, by decide⟩ <;>
    intro h0 h1 h2 h3 <;> simp [getQualityScore_def, h0, h1, h2, h3]

/-- Instantiates C2's theorem on concrete labels (a mixed-case QL2 label
with surrounding text, and a label with no quality substring),
discharging its hypotheses. -/
theorem getQualityScore_exactly_one_witness :
    getQualityScore (some "Lidar qL2 tile") = 2 ∧
    getQualityScore (some "no quality") = 9 :=
  ⟨(getQualityScore_exactly_one (some "Lidar qL2 tile")).2.2.1
      (by decide) (by decide) (by decide) (by decide),
   (getQualityScore_exactly_one (some "no quality")).2.2.2.2.1
      (by decide) (by decide) (by decide) (by decide)⟩

/-- C10.  The substring checks run in the fixed order `QL0`, `QL1`,
`QL2`, `QL3`, so a label containing several of them scores the
lowest-numbered one; a label containing `QL10` therefore matches `QL1`
and never scores 9 (scoring exactly 1 when `QL0` is absent, as for the
label `"QL10"` itself); and a label containing both `QL3` and `QL0`
scores 0. -/
theorem getQualityScore_first_match_wins (q : Option String) :
    (includes (qlabel q) "QL0" = true → getQualityScore q = 0) ∧
    (includes (qlabel q) "QL0" = false → includes (qlabel q) "QL1" = true →
      getQualityScore q = 1) ∧
    (includes (qlabel q) "QL0" = false → includes (qlabel q) "QL1" = false →
      includes (qlabel q) "QL2" = true → getQualityScore q = 2) ∧
    (includes (qlabel q) "QL0" = false → includes (qlabel q) "QL1" = false →
      includes (qlabel q) "QL2" = false → includes (qlabel q) "QL3" = true →
      getQualityScore q = 3) ∧
    (∀ s : String, includes (upperJS s) "QL10" = true →
      getQualityScore (some s) ≠ 9) ∧
    getQualityScore (some "QL10") = 1 ∧
    (∀ s : String, includes (upperJS s) "QL3" = true →
      includes (upperJS s) "QL0" = true → getQualityScore (some s) = 0) := by
  refine ⟨?_, ?_, ?_, ?_, ?_, by decide, ?_⟩
  · intro h0; simp [getQualityScore_def, h0]
  · intro h0 h1; simp [getQualityScore_def, h0, h1]
  · intro h0 h1 h2; simp [getQualityScore_def, h0, h1, h2]
  · intro h0 h1 h2 h3; simp [getQualityScore_def, h0, h1, h2, h3]
  · intro s h
    have h1 : includes (upperJS s) "QL1" = true := includes_QL1_of_QL10 _ h
    rcases h0 : includes (upperJS s) "QL0" with _ | _ <;>
      simp [getQualityScore_def, qlabel, h0, h1]
  · intro s h3 h0
    simp [getQualityScore_def, qlabel, h0]

/-- Instantiates C10's theorem on concrete multi-match labels,
discharging its hypotheses. -/
theorem getQualityScore_first_match_wins_witness :
    getQualityScore (some "ql10 tile") = 1 ∧
    getQualityScore (some "QL3 then QL0") = 0 ∧
    getQualityScore (some "ql10 tile") ≠ 9 :=
  ⟨(getQualityScore_first_match_wins (some "ql10 tile")).2.1 (by decide) (by decide),
   (getQualityScore_first_match_wins (some "QL3 then QL0")).2.2.2.2.2.2
      "QL3 then QL0" (by decide) (by decide),
   (getQualityScore_first_match_wins (some "ql10 tile")).2.2.2.2.1
      "ql10 tile" (by decide)⟩

/-! ### Facts about map-state updates -/

theorem lookupLayer_cons (k : String) (st : LayerState) (rest : MapState) (lid : String) :
    lookupLayer ((k, st) :: rest) lid =
      if k = lid then some st else lookupLayer rest lid := rfl

theorem updateLayer_cons (f : LayerState → LayerState) (k : String) (st : LayerState)
    (rest : MapState) (lid : String) :
    updateLayer f ((k, st) :: rest) lid =
      (if k = lid then (k, f st) else (k, st)) :: updateLayer f rest lid := rfl

theorem lookupLayer_updateLayer_self (f : LayerState → LayerState) (m : MapState)
    (lid : String) :
    lookupLayer (updateLayer f m lid) lid = (lookupLayer m lid).map f := by
  induction m with
  | nil => rfl
  | cons kv rest ih =>
    obtain ⟨k, st⟩ := kv
    rw [updateLayer_cons, lookupLayer_cons]
    by_cases h : k = lid
    · rw [if_pos h, if_pos h, lookupLayer_cons, if_pos h]
      rfl
    · rw [if_neg h, if_neg h, lookupLayer_cons, if_neg h]
      exact ih

theorem lookupLayer_updateLayer_other (f : LayerState → LayerState) (m : MapState)
    (lid lid' : String) (h : lid' ≠ lid) :
    lookupLayer (updateLayer f m lid) lid' = lookupLayer m lid' := by
  induction m with
  | nil => rfl
  | cons kv rest ih =>
    obtain ⟨k, st⟩ := kv
    rw [updateLayer_cons, lookupLayer_cons]
    by_cases hk : k = lid
    · have hk' : ¬ (k = lid') := fun he => h (he ▸ hk)
      rw [if_pos hk, lookupLayer_cons, if_neg hk', if_neg hk']
      exact ih
    · rw [if_neg hk, lookupLayer_cons]
      by_cases hk' : k = lid'
      · rw [if_pos hk', if_pos hk']
      · rw [if_neg hk', if_neg hk']
        exact ih

theorem getLayer_state_true {m : MapState} {lid : String} {st : LayerState}
    (h : lookupLayer m lid = some st) : getLayer m lid = true := by
  unfold getLayer
  rw [h]
  rfl

theorem lookupLayer_applyToLayers_not_mem (f : LayerState → LayerState) :
    ∀ (ids : List String) (m : MapState) (lid : String), lid ∉ ids →
      lookupLayer (applyToLayers f ids m) lid = lookupLayer m lid
  | [], _, _, _ => rfl
  | x :: rest, m, lid, h => by
    have hx : lid ≠ x := fun he => h (he ▸ List.mem_cons_self x rest)
    have hrest : lid ∉ rest := fun hm => h (List.mem_cons_of_mem x hm)
    show lookupLayer
      (applyToLayers f rest (if getLayer m x then updateLayer f m x else m)) lid =
      lookupLayer m lid
    rw [lookupLayer_applyToLayers_not_mem f rest _ lid hrest]
    by_cases hg : getLayer m x
    · rw [if_pos hg, lookupLayer_updateLayer_other f m x lid hx]
    · rw [if_neg hg]

theorem lookupLayer_applyToLayers_none (f : LayerState → LayerState) :
    ∀ (ids : List String) (m : MapState) (lid : String),
      lookupLayer m lid = none →
      lookupLayer (applyToLayers f ids m) lid = none
  | [], _, _, h => h
  | x :: rest, m, lid, h => by
    show lookupLayer
      (applyToLayers f rest (if getLayer m x then updateLayer f m x else m)) lid = none
    apply lookupLayer_applyToLayers_none f rest
    by_cases hg : getLayer m x
    · rw [if_pos hg]
      by_cases hx : lid = x
      · subst hx
        rw [lookupLayer_updateLayer_self, h]
        rfl
      · rw [lookupLayer_updateLayer_other f m x lid hx]
        exact h
    · rw [if_neg hg]
      exact h

theorem lookupLayer_applyToLayers_mem (f : LayerState → LayerState)
    (hf : ∀ st, f (f st) = f st) :
    ∀ (ids : List String) (m : MapState) (lid : String) (st : LayerState),
      lid ∈ ids → lookupLayer m lid = some st →
      lookupLayer (applyToLayers f ids m) lid = some (f st)
  | [], _, _, _, h, _ => absurd h (List.not_mem_nil _)
  | x :: rest, m, lid, st, h, hst => by
    show lookupLayer
      (applyToLayers f rest (if getLayer m x then updateLayer f m x else m)) lid =
      some (f st)
    by_cases hx : lid = x
    · subst hx
      rw [if_pos (getLayer_state_true hst)]
      have h1 : lookupLayer (updateLayer f m lid) lid = some (f st) := by
        rw [lookupLayer_updateLayer_self, hst]
        rfl
      by_cases hr : lid ∈ rest
      · rw [lookupLayer_applyToLayers_mem f hf rest _ lid (f st) hr h1, hf st]
      · rw [lookupLayer_applyToLayers_not_mem f rest _ lid hr, h1]
    · have hr : lid ∈ rest := by
        rcases List.mem_cons.mp h with he | hr
        · exact absurd he hx
        · exact hr
      have hst' :
          lookupLayer (if getLayer m x then updateLayer f m x else m) lid = some st := by
        by_cases hg : getLayer m x
        · rw [if_pos hg, lookupLayer_updateLayer_other f m x lid hx]
          exact hst
        · rw [if_neg hg]
          exact hst
      exact lookupLayer_applyToLayers_mem f hf rest _ lid st hr hst'

/-- Replacement semantics: applying `f` to the layers of `ids` after a
previous pass with `g` is invisible when `f` absorbs `g`. -/
theorem lookupLayer_applyToLayers_twice (f g : LayerState → LayerState)
    (hff : ∀ st, f (f st) = f st) (hgg : ∀ st, g (g st) = g st)
    (hgf : ∀ st, g (f st) = g st) (ids : List String) (m : MapState) (lid : String) :
    lookupLayer (applyToLayers g ids (applyToLayers f ids m)) lid =
      lookupLayer (applyToLayers g ids m) lid := by
  by_cases hmem : lid ∈ ids
  · rcases hcase : lookupLayer m lid with _ | st
    · rw [lookupLayer_applyToLayers_none g ids _ lid
        (lookupLayer_applyToLayers_none f ids m lid hcase),
        lookupLayer_applyToLayers_none g ids m lid hcase]
    · rw [lookupLayer_applyToLayers_mem g hgg ids _ lid (f st) hmem
        (lookupLayer_applyToLayers_mem f hff ids m lid st hmem hcase),
        hgf st, lookupLayer_applyToLayers_mem g hgg ids m lid st hmem hcase]
  · rw [lookupLayer_applyToLayers_not_mem g ids _ lid hmem,
      lookupLayer_applyToLayers_not_mem f ids m lid hmem,
      lookupLayer_applyToLayers_not_mem g ids m lid hmem]

/-- `applySeaLevelFilter` is the common fold with the filter setter. -/
theorem applySeaLevelFilter_eq (ids : List String) (m : MapState) (t : Rat) :
    applySeaLevelFilter ids m t =
      applyToLayers (fun st => { st with filter := some (seaLevelFilterExpr t) }) ids m :=
  rfl

/-- `applyColorScheme` with a recognised scheme is the common fold with
the paint setter for that scheme's expression. -/
theorem applyColorScheme_eq (scheme : String) (e : Expr)
    (h : schemeExpr scheme = some e) (ids : List String) (m : MapState) :
    applyColorScheme ids m scheme =
      applyToLayers (fun st => { st with pointColor := some e }) ids m := by
  have hcase : (scheme = "elevation" ∧ e = elevationExpr) ∨
      (scheme = "intensity" ∧ e = intensityExpr) ∨
      (scheme = "classification" ∧ e = classificationExpr) ∨
      (scheme = "rgb" ∧ e = rgbExpr) := by
    unfold schemeExpr at h
    by_cases h1 : scheme = "elevation"
    · rw [if_pos h1] at h
      exact Or.inl ⟨h1, (Option.some.inj h).symm⟩
    rw [if_neg h1] at h
    by_cases h2 : scheme = "intensity"
    · rw [if_pos h2] at h
      exact Or.inr (Or.inl ⟨h2, (Option.some.inj h).symm⟩)
    rw [if_neg h2] at h
    by_cases h3 : scheme = "classification"
    · rw [if_pos h3] at h
      exact Or.inr (Or.inr (Or.inl ⟨h3, (Option.some.inj h).symm⟩))
    rw [if_neg h3] at h
    by_cases h4 : scheme = "rgb"
    · rw [if_pos h4] at h
      exact Or.inr (Or.inr (Or.inr ⟨h4, (Option.some.inj h).symm⟩))
    rw [if_neg h4] at h
    exact absurd h (by simp)
  unfold applyColorScheme applyToLayers
  rcases hcase with ⟨rfl, rfl⟩ | ⟨rfl, rfl⟩ | ⟨rfl, rfl⟩ | ⟨rfl, rfl⟩ <;>
    · congr 1
      funext acc lid
      cases hg : getLayer acc lid <;>
        simp [applyColorSchemeStep, hg, setPaintPointColor]

/-! ### StyleComposer claims -/

/-- C5.  For every threshold and every layer id of the current layer set
present in the map, applying the sea-level filter leaves that layer's
filter equal to exactly `[">=", ["get", "Z"], threshold]`, whatever
filter it had before (replace, not merge); and under the MapLibre
semantics of that expression, threshold 1.5 accepts points with Z = 1.5
and Z = 3 and rejects Z = 1.4. -/
theorem applySeaLevelFilter_spec (t : Rat) (ids : List String) (m : MapState)
    (lid : String) (st : LayerState) (hmem : lid ∈ ids)
    (hst : lookupLayer m lid = some st) :
    lookupLayer (applySeaLevelFilter ids m t) lid =
      some { st with filter := some (Expr.list
        [.str ">=", .list [.str "get", .str "Z"], .num t]) } ∧
    evalFilterExpr (seaLevelFilterExpr 1.5) [("Z", 1.5)] = true ∧
    evalFilterExpr (seaLevelFilterExpr 1.5) [("Z", 3)] = true ∧
    evalFilterExpr (seaLevelFilterExpr 1.5) [("Z", 1.4)] = false := by
  refine ⟨?_,
    by norm_num [evalFilterExpr, seaLevelFilterExpr, evalNum, lookupAttr],
    by norm_num [evalFilterExpr, seaLevelFilterExpr, evalNum, lookupAttr],
    by norm_num [evalFilterExpr, seaLevelFilterExpr, evalNum, lookupAttr]⟩
  rw [applySeaLevelFilter_eq]
  exact lookupLayer_applyToLayers_mem
    (fun st => { st with filter := some (seaLevelFilterExpr t) })
    (fun _ => rfl) ids m lid st hmem hst

/-- Instantiates C5's theorem on a layer with a pre-existing filter,
discharging its hypotheses. -/
theorem applySeaLevelFilter_spec_witness :
    lookupLayer (applySeaLevelFilter ["lidar-1", "lidar-2"] exMap 1.5) "lidar-2" =
      some { exLayerPrior with filter := some (Expr.list
        [.str ">=", .list [.str "get", .str "Z"], .num 1.5]) } ∧
    evalFilterExpr (seaLevelFilterExpr 1.5) [("Z", 1.5)] = true ∧
    evalFilterExpr (seaLevelFilterExpr 1.5) [("Z", 3)] = true ∧
    evalFilterExpr (seaLevelFilterExpr 1.5) [("Z", 1.4)] = false :=
  applySeaLevelFilter_spec 1.5 ["lidar-1", "lidar-2"] exMap "lidar-2" exLayerPrior
    (by decide) rfl

/-- C6.  For every layer id of the current set present in the map, the
`elevation` scheme sets `point-color` to exactly the piecewise-linear
interpolation over `Z` with control points 0→#0d47a1, 1→#1976d2,
2.5→#26c6da, 3.5→#fdd835, 5→#ef5350, and the `classification` scheme
sets it to exactly the discrete match on `Classification` with 2→green,
7→blue, 9→amber, 10→red, default neutral gray.  The statement holds for
every map, layer set and prior layer state, with a result expression
that is a fixed literal — the expression is a reproducible function of
the scheme alone. -/
theorem applyColorScheme_expressions (ids : List String) (m : MapState)
    (lid : String) (st : LayerState) (hmem : lid ∈ ids)
    (hst : lookupLayer m lid = some st) :
    lookupLayer (applyColorScheme ids m "elevation") lid =
      some { st with pointColor := some (Expr.list
        [.str "interpolate", .list [.str "linear"], .list [.str "get", .str "Z"],
         .num 0, .str "#0d47a1", .num 1, .str "#1976d2", .num 2.5, .str "#26c6da",
         .num 3.5, .str "#fdd835", .num 5, .str "#ef5350"]) } ∧
    lookupLayer (applyColorScheme ids m "classification") lid =
      some { st with pointColor := some (Expr.list
        [.str "match", .list [.str "get", .str "Classification"],
         .num 2, .str "#4caf50", .num 7, .str "#1976d2", .num 9, .str "#ffb300",
         .num 10, .str "#ef5350", .str "#9e9e9e"]) } := by
  constructor
  · rw [applyColorScheme_eq "elevation" elevationExpr rfl ids m]
    exact lookupLayer_applyToLayers_mem
      (fun st => { st with pointColor := some elevationExpr })
      (fun _ => rfl) ids m lid st hmem hst
  · rw [applyColorScheme_eq "classification" classificationExpr rfl ids m]
    exact lookupLayer_applyToLayers_mem
      (fun st => { st with pointColor := some classificationExpr })
      (fun _ => rfl) ids m lid st hmem hst

/-- Instantiates C6's theorem on a concrete map, discharging its
hypotheses. -/
theorem applyColorScheme_expressions_witness :
    lookupLayer (applyColorScheme ["lidar-1"] exMap "elevation") "lidar-1" =
      some { exLayer with pointColor := some (Expr.list
        [.str "interpolate", .list [.str "linear"], .list [.str "get", .str "Z"],
         .num 0, .str "#0d47a1", .num 1, .str "#1976d2", .num 2.5, .str "#26c6da",
         .num 3.5, .str "#fdd835", .num 5, .str "#ef5350"]) } ∧
    lookupLayer (applyColorScheme ["lidar-1"] exMap "classification") "lidar-1" =
      some { exLayer with pointColor := some (Expr.list
        [.str "match", .list [.str "get", .str "Classification"],
         .num 2, .str "#4caf50", .num 7, .str "#1976d2", .num 9, .str "#ffb300",
         .num 10, .str "#ef5350", .str "#9e9e9e"]) } :=
  applyColorScheme_expressions ["lidar-1"] exMap "lidar-1" exLayer (by decide) rfl

/-- C8.  For a scheme string outside {elevation, intensity,
classification, rgb}, no branch of the dispatch fires: the map is
returned unchanged for every layer set (and the embedded function is
total, so the call never throws). -/
theorem applyColorScheme_unknown_noop (scheme : String)
    (h : scheme ∉ (["elevation", "intensity", "classification", "rgb"] : List String)) :
    ∀ (ids : List String) (m : MapState), applyColorScheme ids m scheme = m := by
  simp only [List.mem_cons, List.not_mem_nil, or_false, not_or] at h
  obtain ⟨h1, h2, h3, h4⟩ := h
  intro ids
  induction ids with
  | nil => intro m; rfl
  | cons x rest ih =>
    intro m
    show applyColorScheme rest (applyColorSchemeStep scheme m x) scheme = m
    have hstep : applyColorSchemeStep scheme m x = m := by
      unfold applyColorSchemeStep
      cases hg : getLayer m x <;> simp [hg, h1, h2, h3, h4]
    rw [hstep]
    exact ih m

/-- Instantiates C8's theorem on an unknown scheme string, discharging
its hypothesis. -/
theorem applyColorScheme_unknown_noop_witness :
    applyColorScheme ["lidar-1", "lidar-2"] exMap "viridis" = exMap :=
  applyColorScheme_unknown_noop "viridis" (by decide) ["lidar-1", "lidar-2"] exMap

/-- C9.  For recognised schemes A and B, applying A then B leaves every
layer exactly as applying B alone does (last-applied-wins, no residual
effect), and re-applying the same scheme, or the same threshold, changes
nothing over a single application (idempotent replacement). -/
theorem style_last_applied_wins (ids : List String) (m : MapState) (A B : String)
    (hA : A ∈ (["elevation", "intensity", "classification", "rgb"] : List String))
    (hB : B ∈ (["elevation", "intensity", "classification", "rgb"] : List String)) :
    (∀ lid, lookupLayer (applyColorScheme ids (applyColorScheme ids m A) B) lid =
      lookupLayer (applyColorScheme ids m B) lid) ∧
    (∀ lid, lookupLayer (applyColorScheme ids (applyColorScheme ids m A) A) lid =
      lookupLayer (applyColorScheme ids m A) lid) ∧
    (∀ (t : Rat) (lid : String),
      lookupLayer (applySeaLevelFilter ids (applySeaLevelFilter ids m t) t) lid =
        lookupLayer (applySeaLevelFilter ids m t) lid) := by
  have hexists : ∀ s, s ∈ (["elevation", "intensity", "classification", "rgb"] : List String) →
      ∃ e, schemeExpr s = some e := by
    intro s hs
    simp only [List.mem_cons, List.not_mem_nil, or_false] at hs
    rcases hs with rfl | rfl | rfl | rfl
    · exact ⟨elevationExpr, rfl⟩
    · exact ⟨intensityExpr, rfl⟩
    · exact ⟨classificationExpr, rfl⟩
    · exact ⟨rgbExpr, rfl⟩
  obtain ⟨eA, hEA⟩ := hexists A hA
  obtain ⟨eB, hEB⟩ := hexists B hB
  refine ⟨?_, ?_, ?_⟩
  · intro lid
    rw [applyColorScheme_eq B eB hEB ids m,
      applyColorScheme_eq A eA hEA ids m,
      applyColorScheme_eq B eB hEB ids _]
    exact lookupLayer_applyToLayers_twice
      (fun st => { st with pointColor := some eA })
      (fun st => { st with pointColor := some eB })
      (fun _ => rfl) (fun _ => rfl) (fun _ => rfl) ids m lid
  · intro lid
    rw [applyColorScheme_eq A eA hEA ids m,
      applyColorScheme_eq A eA hEA ids _]
    exact lookupLayer_applyToLayers_twice
      (fun st => { st with pointColor := some eA })
      (fun st => { st with pointColor := some eA })
      (fun _ => rfl) (fun _ => rfl) (fun _ => rfl) ids m lid
  · intro t lid
    rw [applySeaLevelFilter_eq ids m t, applySeaLevelFilter_eq ids _ t]
    exact lookupLayer_applyToLayers_twice
      (fun st => { st with filter := some (seaLevelFilterExpr t) })
      (fun st => { st with filter := some (seaLevelFilterExpr t) })
      (fun _ => rfl) (fun _ => rfl) (fun _ => rfl) ids m lid

/-- Instantiates C9's theorem at classification-then-elevation on a
concrete map, discharging its hypotheses. -/
theorem style_last_applied_wins_witness :
    lookupLayer (applyColorScheme ["lidar-1"]
        (applyColorScheme ["lidar-1"] exMap "classification") "elevation") "lidar-1" =
      lookupLayer (applyColorScheme ["lidar-1"] exMap "elevation") "lidar-1" ∧
    lookupLayer (applySeaLevelFilter ["lidar-1"]
        (applySeaLevelFilter ["lidar-1"] exMap 1.5) 1.5) "lidar-1" =
      lookupLayer (applySeaLevelFilter ["lidar-1"] exMap 1.5) "lidar-1" :=
  ⟨(style_last_applied_wins ["lidar-1"] exMap "classification" "elevation"
      (by decide) (by decide)).1 "lidar-1",
   (style_last_applied_wins ["lidar-1"] exMap "classification" "elevation"
      (by decide) (by decide)).2.2 1.5 "lidar-1"⟩

/-! ### The Florida feature filter claim -/

/-- C7.  A feature passes the filter exactly when the JS-truthy
resolution of its `state` (falling back to `STATE`) property yields a
value whose uppercased form contains `FL`; on the spec's four-feature
example exactly the `"FL"` and `"fl"` features survive. -/
theorem floridaFilter_spec (fs : List Feature) :
    (∀ f : Feature, f ∈ floridaFilter fs ↔
      (f ∈ fs ∧ ∃ s, jsOrStr f.state f.STATE = some s ∧
        includes (upperJS s) "FL" = true)) ∧
    floridaFilter [featFL, featLowercaseFl, featGA, featMissing] =
      [featFL, featLowercaseFl] := by
  refine ⟨?_, rfl⟩
  intro f
  rw [floridaFilter, List.mem_filter]
  refine and_congr_right fun _ => ?_
  unfold floridaKeep
  rcases h : jsOrStr f.state f.STATE with _ | s <;> simp [h]

/-- Instantiates C7's theorem at the `"FL"` feature, discharging the
membership direction concretely. -/
theorem floridaFilter_spec_witness :
    featFL ∈ floridaFilter [featFL, featLowercaseFl, featGA, featMissing] :=
  ((floridaFilter_spec [featFL, featLowercaseFl, featGA, featMissing]).1 featFL).mpr
    ⟨by decide, "FL", rfl, by decide⟩

end FloridaLidar
